import Mathlib

/-!
Verification of the casper language front end.

We shallowly embed the AST builder rules of src/syntax/parser.js and the
semantic analysis of src/ast/break-statement.js, and prove the specified
properties about them.  The AST node classes, the Context class and the
grammar asset are not under src/, so their shapes are modelled from the
spec where needed; the builder and analysis functions themselves are
translated directly from the source.
-/

namespace Casper

/-- Structural type descriptors imported by the parser from the builtins
module: NumType, StringType, BooleanType singletons and the composite
ListType, SetType, DictType.  Modelled from the spec: the
semantics/builtins and type-descriptor class files are not under src/. -/
inductive TypeKind where
  | NumType
  | StringType
  | BooleanType
  | ListType (elem : TypeKind)
  | SetType (elem : TypeKind)
  | DictType (key value : TypeKind)
deriving DecidableEq

/-- AST node variants built by the verified builder rules.  Modelled from
the spec: the ast/ node class files (program, if-statement, from-statement,
ternary-expression, return-statement, parameter and the literal classes)
are not under src/; field names and order follow the spec data model.
Numeric values are modelled as exact rationals. -/
inductive Ast where
  | Program (body : List Ast)
  | WhileStatement (test : Ast) (body : List Ast)
  | IfStatement (tests : List Ast) (consequents : List (List Ast))
      (alternate : Option (List Ast))
  | FromStatement (loopVar : String) (tests : List Ast)
      (increments : List Ast) (body : List Ast)
  | BreakStatement
  | ReturnStatement (value : Option Ast)
  | TernaryExpression (test : Ast) (ifTrue : Ast) (ifFalse : Ast)
  | Parameter (type : TypeKind) (name : String) (default : Option Ast)
  | BooleanLiteral (value : Bool)
  | NumericLiteral (value : ℚ)
  | StringLiteral (text : String)

/-- Translation of arrayToNullable from src/syntax/parser.js: Ohm turns an
optional match into either the one-element array with the value or the
empty array; the builder returns null for an empty array and the first
element otherwise. -/
def arrayToNullable {α : Type} : List α → Option α
  | [] => none
  | x :: _ => some x

/-- Translation of the Stmt_if builder from src/syntax/parser.js: tests is
the first test consed onto the elif tests, consequents is the first block
consed onto the elif blocks, and the alternate is the optional trailing
else block collapsed to a nullable value. -/
def Stmt_if (firstTest : Ast) (firstBlock : List Ast) (moreTests : List Ast)
    (moreBlocks : List (List Ast)) (lastBlock : List (List Ast)) : Ast :=
  Ast.IfStatement (firstTest :: moreTests) (firstBlock :: moreBlocks)
    (arrayToNullable lastBlock)

/-- Translation of the Stmt_loop builder from src/syntax/parser.js: the
loop variable is the identifier's source string, the tests field is the
two-element array of the two test expressions, and the increments and
block results are passed through. -/
def Stmt_loop (id : String) (firstTest : Ast) (secondTest : Ast)
    (increments : List Ast) (block : List Ast) : Ast :=
  Ast.FromStatement id [firstTest, secondTest] increments block

/-- Translation of the Stmt_ternary builder from src/syntax/parser.js: the
sub-matches arrive in source order (trueTest, test, falseTest) and the
TernaryExpression is constructed as (test, ifTrue, ifFalse).
Modelled from the spec: the TernaryExpression class file is not under
src/; its constructor field order (test, ifTrue, ifFalse) follows the
spec data model. -/
def Stmt_ternary (trueTest : Ast) (test : Ast) (falseTest : Ast) : Ast :=
  Ast.TernaryExpression test trueTest falseTest

/-- Translation of the SimpleStmt_return builder from src/syntax/parser.js:
the optional return value is collapsed to a nullable value. -/
def SimpleStmt_return (e : List Ast) : Ast :=
  Ast.ReturnStatement (arrayToNullable e)

/-- Translation of the Param builder from src/syntax/parser.js: the
optional default expression is collapsed to a nullable value; the id
sub-match's ast operation yields its source string. -/
def Param (type : TypeKind) (id : String) (exp : List Ast) : Ast :=
  Ast.Parameter type id (arrayToNullable exp)

/-- Translation of the boollit builder from src/syntax/parser.js: the
stored boolean is the exact-equality comparison of the matched source
string with the token true. -/
def boollit (sourceString : String) : Ast :=
  Ast.BooleanLiteral (sourceString == "true")

/-- Helper for the numeric conversion: consume leading decimal digits of a
character list into an accumulator, returning the value and the rest. -/
def digitsAcc (acc : ℕ) : List Char → ℕ × List Char
  | [] => (acc, [])
  | c :: cs =>
    if c.isDigit then digitsAcc (10 * acc + (c.toNat - 48)) cs
    else (acc, c :: cs)

/-- Helper for the numeric conversion: the value of a fraction-digit list,
each digit contributing at the next smaller decimal place. -/
def fracDigits : List Char → ℚ
  | [] => 0
  | c :: cs =>
    if c.isDigit then (((c.toNat - 48 : ℕ) : ℚ) + fracDigits cs) / 10 else 0

/-- Modelled from the spec: the numlit builder applies the host language's
unary plus conversion, a primitive that is not code under src/.  Per the
spec the literal is parsed as a floating-point value from its full matched
digit/decimal text; the floating-point value is abstracted as an exact
rational: leading digits form the integer part and, after a decimal
point, the remaining digits form the fraction. -/
def jsAfterDigits : ℕ × List Char → ℚ
  | (ipart, '.' :: cs) => (ipart : ℚ) + fracDigits cs
  | (ipart, _) => (ipart : ℚ)

/-- The whole numeric conversion: consume the integer digits, then the
fraction after a decimal point when one follows. -/
def jsUnaryPlus (s : String) : ℚ :=
  jsAfterDigits (digitsAcc 0 s.toList)

/-- Translation of the numlit builder from src/syntax/parser.js: the value
is the numeric conversion of the entire matched source string. -/
def numlit (sourceString : String) : Ast :=
  Ast.NumericLiteral (jsUnaryPlus sourceString)

/-- Translation of the strlit builder from src/syntax/parser.js: the stored
text is the entire matched source string, delimiters included, with no
escape interpretation. -/
def strlit (sourceString : String) : Ast :=
  Ast.StringLiteral sourceString

/-- The decimal value denoted by a digit list read left to right; used to
state that the numeric builder consumes the entire matched text. -/
def decimalValue (l : List Char) : ℕ :=
  l.foldl (fun a c => 10 * a + (c.toNat - 48)) 0

/-- Result of the external Ohm grammar match: either a failure carrying a
diagnostic message, or a successful match over some concrete parse tree. -/
inductive MatchResult (Tree : Type) where
  | failed (message : String)
  | succeeded (tree : Tree)

/-- Translation of the exported parse function of src/syntax/parser.js,
parameterised by its external collaborators: the preparser
withIndentsAndDedents, the grammar match, and the ast operation of the
generator table applied to a successful match.  A failed match throws an
error interpolating the match message; a successful match returns the
generator's AST. -/
def parse {Tree Prog : Type} (withIndentsAndDedents : String → String)
    (grammarMatch : String → MatchResult Tree) (astOf : Tree → Prog)
    (text : String) : Except String Prog :=
  match grammarMatch (withIndentsAndDedents text) with
  | MatchResult.failed message => Except.error ("Syntax Error: " ++ message)
  | MatchResult.succeeded m => Except.ok (astOf m)

/-- A lexical scope node.  Modelled from the spec: the Context class is not
under src/; per the spec it owns a bindings map from names to declaring
nodes, holds a back-reference to its parent scope, and carries the flags
inLoop and enclosingFunctionReturnType. -/
inductive Context where
  | mk (parent : Option Context) (bindings : List (String × Ast))
      (inLoop : Bool) (enclosingFunctionReturnType : Option TypeKind)

/-- The inLoop flag of a context. -/
def Context.inLoop : Context → Bool
  | .mk _ _ l _ => l

/-- Translation of BreakStatement.analyze from src/ast/break-statement.js:
if the received context's inLoop flag is not set, throw the diagnostic;
otherwise do nothing.  The method mutates nothing, so in state-passing
style success returns the received context unchanged. -/
def BreakStatement.analyze (context : Context) : Except String Context :=
  if !context.inLoop then Except.error "Break Statement out of Loop"
  else Except.ok context

/-- C1: BreakStatement.analyze, applied to any context, fails with the
break-outside-loop diagnostic if and only if that context's inLoop flag is
false; when inLoop is true it succeeds. -/
theorem breakStatement_analyze_fails_iff_not_inLoop (context : Context) :
    (BreakStatement.analyze context
        = Except.error "Break Statement out of Loop"
      ↔ context.inLoop = false)
    ∧ (context.inLoop = true
      → BreakStatement.analyze context = Except.ok context) := by
  unfold BreakStatement.analyze
  cases h : context.inLoop <;> simp

/-- Witness for C1 at concrete contexts: a context with inLoop false fails
with the diagnostic and a context with inLoop true succeeds. -/
theorem breakStatement_analyze_fails_iff_not_inLoop_witness :
    BreakStatement.analyze (Context.mk none [] false none)
        = Except.error "Break Statement out of Loop"
      ∧ BreakStatement.analyze (Context.mk none [] true none)
        = Except.ok (Context.mk none [] true none) :=
  ⟨(breakStatement_analyze_fails_iff_not_inLoop
      (Context.mk none [] false none)).1.mpr rfl,
    (breakStatement_analyze_fails_iff_not_inLoop
      (Context.mk none [] true none)).2 rfl⟩

/-- C10: BreakStatement.analyze never modifies the context it receives and
produces no value on success; its only observable effect is the possible
diagnostic: on every context it either succeeds returning the context
unchanged or fails with the break-outside-loop diagnostic. -/
theorem breakStatement_analyze_frame (context : Context) :
    BreakStatement.analyze context = Except.ok context
      ∨ BreakStatement.analyze context
        = Except.error "Break Statement out of Loop" := by
  unfold BreakStatement.analyze
  cases context.inLoop <;> simp

/-- C2: parse raises an error carrying the match's diagnostic message
whenever the grammar match fails, and returns exactly the AST produced by
the generator table whenever the match succeeds; the Except result admits
no partial or degraded outcome. -/
theorem parse_error_iff_match_failed {Tree Prog : Type}
    (w : String → String) (g : String → MatchResult Tree)
    (astOf : Tree → Prog) (text : String) :
    (∀ message, g (w text) = MatchResult.failed message
      → parse w g astOf text = Except.error ("Syntax Error: " ++ message))
    ∧ (∀ m, g (w text) = MatchResult.succeeded m
      → parse w g astOf text = Except.ok (astOf m)) := by
  constructor
  · intro message h
    unfold parse
    rw [h]
  · intro m h
    unfold parse
    rw [h]

/-- Witness for C2 at a concrete failing matcher and a concrete succeeding
matcher over Nat parse trees. -/
theorem parse_error_iff_match_failed_witness :
    parse id (fun _ => MatchResult.failed "oops") (fun t : ℕ => t) "x"
        = Except.error ("Syntax Error: " ++ "oops")
      ∧ parse id (fun _ => MatchResult.succeeded 7) (fun t : ℕ => t + 1) "x"
        = Except.ok 8 :=
  ⟨(parse_error_iff_match_failed id (fun _ => MatchResult.failed "oops")
      (fun t : ℕ => t) "x").1 "oops" rfl,
    (parse_error_iff_match_failed id (fun _ => MatchResult.succeeded 7)
      (fun t : ℕ => t + 1) "x").2 7 rfl⟩

/-- C3: the boollit builder produces BooleanLiteral true exactly when the
matched source text is the token true character for character, and
BooleanLiteral false for any other matched text. -/
theorem boollit_true_iff_token_true (s : String) :
    (s = "true" → boollit s = Ast.BooleanLiteral true)
    ∧ (s ≠ "true" → boollit s = Ast.BooleanLiteral false) := by
  constructor
  · rintro rfl
    rfl
  · intro h
    unfold boollit
    rw [beq_eq_false_iff_ne.mpr h]

/-- Witness for C3: the token true yields BooleanLiteral true and the
longer token truex yields BooleanLiteral false. -/
theorem boollit_true_iff_token_true_witness :
    boollit "true" = Ast.BooleanLiteral true
      ∧ boollit "truex" = Ast.BooleanLiteral false :=
  ⟨(boollit_true_iff_token_true "true").1 rfl,
    (boollit_true_iff_token_true "truex").2 (by decide)⟩

/-- C4: the AST builder collapses an optional sub-match to a nullable
value: the one-element array collapses to its element and the empty array
to null, both for arrayToNullable itself and at its two use sites, the
return statement's optional value and the parameter's optional default. -/
theorem arrayToNullable_collapses (x : Ast) (t : TypeKind) (n : String) :
    arrayToNullable [x] = some x
    ∧ arrayToNullable ([] : List Ast) = none
    ∧ SimpleStmt_return [x] = Ast.ReturnStatement (some x)
    ∧ SimpleStmt_return [] = Ast.ReturnStatement none
    ∧ Param t n [x] = Ast.Parameter t n (some x)
    ∧ Param t n [] = Ast.Parameter t n none :=
  ⟨rfl, rfl, rfl, rfl, rfl, rfl⟩

/-- C5: the if-statement builder produces tests and consequents sequences
that are the matched tests and blocks in source order, first element then
the elif elements by index, of equal length whenever the grammar supplies
as many elif tests as elif blocks; the alternate is null exactly when no
trailing else block is present. -/
theorem Stmt_if_aligned (firstTest : Ast) (firstBlock : List Ast)
    (moreTests : List Ast) (moreBlocks : List (List Ast))
    (lastBlock : List (List Ast))
    (hlen : moreTests.length = moreBlocks.length) :
    Stmt_if firstTest firstBlock moreTests moreBlocks lastBlock
      = Ast.IfStatement (firstTest :: moreTests) (firstBlock :: moreBlocks)
          (arrayToNullable lastBlock)
    ∧ (firstTest :: moreTests).length = (firstBlock :: moreBlocks).length
    ∧ (arrayToNullable lastBlock = none ↔ lastBlock = []) := by
  refine ⟨rfl, by simp [hlen], ?_⟩
  cases lastBlock <;> simp [arrayToNullable]

/-- Witness for C5 at a concrete one-elif chain with no else: the tests and
consequents align and the alternate is null. -/
theorem Stmt_if_aligned_witness :
    Stmt_if Ast.BreakStatement [] [Ast.BreakStatement] [[]] []
      = Ast.IfStatement [Ast.BreakStatement, Ast.BreakStatement] [[], []]
          (arrayToNullable ([] : List (List Ast)))
    ∧ ([Ast.BreakStatement, Ast.BreakStatement] : List Ast).length
        = ([[], []] : List (List Ast)).length
    ∧ (arrayToNullable ([] : List (List Ast)) = none
        ↔ ([] : List (List Ast)) = []) :=
  Stmt_if_aligned Ast.BreakStatement [] [Ast.BreakStatement] [[]] [] rfl

/-- C7: the strlit builder stores the entire matched source text, the
delimiters included, with no escape-sequence interpretation: the stored
text is the matched text itself, verbatim. -/
theorem strlit_keeps_raw_text (sourceString : String) :
    strlit sourceString = Ast.StringLiteral sourceString :=
  rfl

/-- C8: the loop builder produces a FromStatement whose loop variable is
the matched identifier, whose tests field is exactly the pair of the two
matched test expressions in source order, and whose increments and body
sequences are passed through unchanged. -/
theorem Stmt_loop_pair_of_tests (id : String) (firstTest secondTest : Ast)
    (increments : List Ast) (block : List Ast) :
    Stmt_loop id firstTest secondTest increments block
      = Ast.FromStatement id [firstTest, secondTest] increments block :=
  rfl

/-- C9: the ternary builder reorders its sub-matches: the middle
sub-expression of the source form becomes the TernaryExpression's test,
the first becomes ifTrue and the last becomes ifFalse. -/
theorem Stmt_ternary_reorders (trueTest test falseTest : Ast) :
    Stmt_ternary trueTest test falseTest
      = Ast.TernaryExpression test trueTest falseTest :=
  rfl

/-- Folding the digit step from an accumulator shifts the accumulator by
one decimal place per digit. -/
theorem foldl_digits_shift (a : ℕ) (l : List Char) :
    l.foldl (fun x c => 10 * x + (c.toNat - 48)) a
      = a * 10 ^ l.length + l.foldl (fun x c => 10 * x + (c.toNat - 48)) 0 := by
  induction l generalizing a with
  | nil => simp
  | cons c cs ih =>
    simp only [List.foldl_cons, List.length_cons]
    rw [ih (10 * a + (c.toNat - 48)), ih (10 * 0 + (c.toNat - 48))]
    ring

/-- digitsAcc consumes every digit up to a decimal point and stops there. -/
theorem digitsAcc_stops_at_dot (acc : ℕ) (ip fp : List Char)
    (hip : ∀ c ∈ ip, c.isDigit = true) :
    digitsAcc acc (ip ++ '.' :: fp)
      = (ip.foldl (fun x c => 10 * x + (c.toNat - 48)) acc, '.' :: fp) := by
  have hdot : ('.' : Char).isDigit = false := by decide
  induction ip generalizing acc with
  | nil => simp [digitsAcc, hdot]
  | cons c cs ih =>
    have hc : c.isDigit = true := hip c (by simp)
    simp only [List.cons_append, digitsAcc, hc, if_true, List.foldl_cons]
    exact ih _ fun d hd => hip d (by simp [hd])

/-- digitsAcc consumes an all-digit list completely. -/
theorem digitsAcc_consumes_all (acc : ℕ) (ip : List Char)
    (hip : ∀ c ∈ ip, c.isDigit = true) :
    digitsAcc acc ip
      = (ip.foldl (fun x c => 10 * x + (c.toNat - 48)) acc, []) := by
  induction ip generalizing acc with
  | nil => simp [digitsAcc]
  | cons c cs ih =>
    have hc : c.isDigit = true := hip c (by simp)
    simp only [digitsAcc, hc, if_true, List.foldl_cons]
    exact ih _ fun d hd => hip d (by simp [hd])

/-- The fraction value of an all-digit list is its decimal value divided by
ten to its length. -/
theorem fracDigits_eq_decimalValue (fp : List Char)
    (hfp : ∀ c ∈ fp, c.isDigit = true) :
    fracDigits fp = (decimalValue fp : ℚ) / 10 ^ fp.length := by
  induction fp with
  | nil => simp [fracDigits, decimalValue]
  | cons c cs ih =>
    have hc : c.isDigit = true := hfp c (by simp)
    have ih' := ih (fun d hd => hfp d (by simp [hd]))
    have h10 : (10 : ℚ) ^ cs.length ≠ 0 := by positivity
    simp only [fracDigits, hc, if_true]
    rw [ih']
    unfold decimalValue
    rw [List.foldl_cons, foldl_digits_shift (10 * 0 + (c.toNat - 48))]
    rw [List.length_cons]
    generalize (c.toNat - 48 : ℕ) = d
    generalize List.foldl (fun a c => 10 * a + (c.toNat - 48)) 0 cs = F
    push_cast
    field_simp
    left
    ring

/-- C6: the numlit builder produces a NumericLiteral whose value is the
number denoted by the entire matched source text: for a digit/decimal
text its integer digits combined with all of its fraction digits, and for
an all-digit text its full decimal value. -/
theorem numlit_parses_entire_text (ip fp : List Char)
    (hip : ∀ c ∈ ip, c.isDigit = true) (hfp : ∀ c ∈ fp, c.isDigit = true) :
    numlit (String.mk (ip ++ '.' :: fp))
      = Ast.NumericLiteral
          ((decimalValue ip : ℚ) + (decimalValue fp : ℚ) / 10 ^ fp.length)
    ∧ numlit (String.mk ip) = Ast.NumericLiteral (decimalValue ip) := by
  constructor
  · unfold numlit jsUnaryPlus
    rw [show (String.mk (ip ++ '.' :: fp)).toList = ip ++ '.' :: fp from rfl]
    rw [digitsAcc_stops_at_dot 0 ip fp hip]
    simp only [jsAfterDigits]
    rw [fracDigits_eq_decimalValue fp hfp]
    rfl
  · unfold numlit jsUnaryPlus
    rw [show (String.mk ip).toList = ip from rfl]
    rw [digitsAcc_consumes_all 0 ip hip]
    simp only [jsAfterDigits]
    rfl

/-- Witness for C6: the text 1.25 yields the numeric value one and
twenty-five hundredths, and the text 1 yields one. -/
theorem numlit_parses_entire_text_witness :
    numlit (String.mk ['1', '.', '2', '5'])
      = Ast.NumericLiteral
          ((decimalValue ['1'] : ℚ)
            + (decimalValue ['2', '5'] : ℚ)
              / 10 ^ (['2', '5'] : List Char).length)
    ∧ numlit (String.mk ['1']) = Ast.NumericLiteral (decimalValue ['1']) :=
  numlit_parses_entire_text ['1'] ['2', '5'] (by decide) (by decide)

end Casper
